import Mathlib

/-!
# Verification of `spinnaker_components/ensemble/filtered_activity.c`

Shallow embedding of the filtered-activity module of the `nengo_spinnaker`
ensemble firmware.  The module owns three globals

  * `g_num_activity_filters : uint32_t`
  * `g_filtered_activities  : value_t **`     (one state vector per filter)
  * `g_activity_filter_params : activity_filter_parameters_t *`

and exposes two entry points, `filtered_activity_initialise` and
`filtered_activity_step`.  We model the globals as an explicit record
`FAState`, allocation by an oracle `alloc : Nat → Bool` giving the success
of the i-th `MALLOC_FAIL_FALSE` call, the configuration region as a word
function `address : Nat → Nat`, and the step function as an `Option`-valued
function that returns `none` exactly when the C code would read through a
null pointer or out of an allocated object's bounds.
-/

/-- Modelled from the spec: `value_t` (declared in the header
`filtered_activity.h`, not part of this fragment) is a signed 32-bit
fixed-point number; we embed its bit pattern as a mathematical integer in
`[-2^31, 2^31)`. -/
def wrap32 (x : Int) : Int :=
  (x + 2 ^ 31) % 2 ^ 32 - 2 ^ 31

/-- Reinterpret a 32-bit configuration word as a signed `value_t` bit
pattern. -/
def toSigned32 (w : Nat) : Int :=
  if w % 2 ^ 32 < 2 ^ 31 then ((w % 2 ^ 32 : Nat) : Int)
  else ((w % 2 ^ 32 : Nat) : Int) - 2 ^ 32

/-- Modelled from the spec: fixed-point multiplication of two `value_t`
values (the `*=` of the C fragment); the exact scaling is external to this
fragment, we fix the s16.15 `accum` semantics: multiply the underlying
integers, arithmetic-shift right by 15 bits (floor division), wrap to 32
bits.  None of the claims proved below depends on this particular choice:
they are parametric in the multiplication. -/
def fixmul (a b : Int) : Int :=
  wrap32 (Int.fdiv (a * b) 32768)

/-- `activity_filter_parameters_t`.  Modelled from the spec: the record
type is declared in the missing header; per the spec it holds exactly the
fixed-point `decay` value (field `filter`) and the `one_minus_decay`
companion (field `n_filter`), packed with no padding, i.e. two consecutive
32-bit words. -/
structure ActivityFilterParams where
  filter : Int
  n_filter : Int
deriving Repr, DecidableEq

/-- The three globals of `filtered_activity.c`.  A state vector slot is
`none` while the corresponding pointer is null / not (known to be)
allocated, and `some v` once `MALLOC_FAIL_FALSE` has produced a live
object (`v` lists its `value_t` entries).  The two top-level pointers are
likewise `Option`s, `none` standing for `NULL`. -/
structure FAState where
  g_num_activity_filters : Nat
  g_filtered_activities : Option (List (Option (List Int)))
  g_activity_filter_params : Option (List ActivityFilterParams)
deriving Repr, DecidableEq

/-- The state at load time: the C initialisers
`g_num_activity_filters = 0`, `g_filtered_activities = NULL`,
`g_activity_filter_params = NULL`. -/
def initialState : FAState :=
  { g_num_activity_filters := 0
    g_filtered_activities := none
    g_activity_filter_params := none }

/-- The parameter record the `memcpy` in `filtered_activity_initialise`
places at index `f`: the two words of the configuration region starting at
word `1 + 2 * f`. -/
def readParam (address : Nat → Nat) (f : Nat) : ActivityFilterParams :=
  { filter := toSigned32 (address (1 + 2 * f))
    n_filter := toSigned32 (address (2 + 2 * f)) }

/-- The per-filter allocation loop of `filtered_activity_initialise`:
starting at filter index `f` with `k` filters left, try
`MALLOC_FAIL_FALSE(g_filtered_activities[f], n_neurons * sizeof(value_t))`
(allocation index `2 + f`, after the two array allocations) followed by
`memset(..., 0, ...)`; on the first failure the C code returns `false`
immediately, leaving the failing slot null and the remaining slots
unwritten (modelled as `none`). -/
def allocStateVectors (alloc : Nat → Bool) (n_neurons : Nat) :
    Nat → Nat → Bool × List (Option (List Int))
  | _, 0 => (true, [])
  | f, k + 1 =>
    if alloc (2 + f) then
      let r := allocStateVectors alloc n_neurons (f + 1) k
      (r.1, some (List.replicate n_neurons 0) :: r.2)
    else
      (false, List.replicate (k + 1) none)

/-- The filter count `address[0]` as the 32-bit unsigned value the C code
reads. -/
def readF (address : Nat → Nat) : Nat := address 0 % 2 ^ 32

/-- `filtered_activity_initialise(address, n_neurons)`.

`alloc i` is the success of the i-th `MALLOC_FAIL_FALSE` call (0: the
parameter array, 1: the pointer array, `2 + f`: filter `f`'s state
vector); `MALLOC_FAIL_FALSE` is modelled from the spec ("allocate N bytes
or signal failure"): on failure it leaves the target pointer null and
makes `initialise` return `false` at once, freeing nothing.  The function
first stores `address[0]` into `g_num_activity_filters`; with `F > 0` it
allocates the parameter array (its contents garbage, modelled as zeroed
records, until the `memcpy`), then the pointer array, then copies the `F`
parameter records from word 1 of the region, then runs the per-filter
loop. -/
def filtered_activity_initialise (alloc : Nat → Bool) (address : Nat → Nat)
    (n_neurons : Nat) (s : FAState) : Bool × FAState :=
  let F := readF address
  let s1 : FAState := { s with g_num_activity_filters := F }
  if F = 0 then
    (true, s1)
  else if alloc 0 = false then
    (false, { s1 with g_activity_filter_params := none })
  else if alloc 1 = false then
    (false, { s1 with
                g_activity_filter_params :=
                  some (List.replicate F { filter := 0, n_filter := 0 })
                g_filtered_activities := none })
  else
    let params := (List.range F).map (readParam address)
    let r := allocStateVectors alloc n_neurons 0 F
    (r.1, { s1 with
              g_activity_filter_params := some params
              g_filtered_activities := some r.2 })

/-- The inner loop of `filtered_activity_step` for one filter: multiply
the first `n_neurons` entries of the state vector by the decay
coefficient `d`, in place.  (Entries beyond `n_neurons` are never
touched.) -/
def decayVec (d : Int) : Nat → List Int → List Int
  | _, [] => []
  | 0, v => v
  | nn + 1, x :: xs => fixmul x d :: decayVec d nn xs

/-- One iteration of the outer loop of `filtered_activity_step` (filter
index `f`, with `n_neurons > 0` so the inner loop body runs): reads the
pointer `g_filtered_activities[f]` and the record
`g_activity_filter_params[f]`; `none` models an out-of-bounds read of
either array, a null state-vector pointer, or an out-of-bounds neuron
index. -/
def stepOne (params : List ActivityFilterParams) (n_neurons : Nat)
    (acts : List (Option (List Int))) (f : Nat) :
    Option (List (Option (List Int))) :=
  match acts[f]?, params[f]? with
  | some (some v), some p =>
    if n_neurons ≤ v.length then
      some (acts.set f (some (decayVec p.filter n_neurons v)))
    else none
  | _, _ => none

/-- The outer loop of `filtered_activity_step` run for filter indices
`0, …, k-1` (in that order). -/
def stepUpto (params : List ActivityFilterParams) (n_neurons : Nat)
    (acts : List (Option (List Int))) : Nat → Option (List (Option (List Int)))
  | 0 => some acts
  | k + 1 => (stepUpto params n_neurons acts k).bind
      (fun a => stepOne params n_neurons a k)

/-- `filtered_activity_step(n_neurons)` as a checked state transformer:
`some s2` when every memory access of the C loops is in bounds and through
a live pointer (yielding the new global state `s2`), `none` when the C
code would dereference a null pointer or read out of bounds.  When
`g_num_activity_filters = 0` or `n_neurons = 0` no loop body executes, so
nothing is read or written and the state is returned unchanged. -/
def filtered_activity_stepChecked (n_neurons : Nat) (s : FAState) :
    Option FAState :=
  if s.g_num_activity_filters = 0 ∨ n_neurons = 0 then some s
  else
    match s.g_filtered_activities, s.g_activity_filter_params with
    | some acts, some params =>
      (stepUpto params n_neurons acts s.g_num_activity_filters).map
        (fun a => { s with g_filtered_activities := some a })
    | _, _ => none

/-- `k` consecutive calls to `filtered_activity_step(n_neurons)`. -/
def iterStep (n_neurons : Nat) : Nat → FAState → Option FAState
  | 0, s => some s
  | k + 1, s => (filtered_activity_stepChecked n_neurons s).bind
      (iterStep n_neurons k)

/-- The value of `g_filtered_activities[f][n]`, when every access on the
way is live and in bounds. -/
def entry (s : FAState) (f n : Nat) : Option Int :=
  match s.g_filtered_activities with
  | none => none
  | some acts =>
    match acts[f]? with
    | none => none
    | some none => none
    | some (some v) => v[n]?

/-- The record `g_activity_filter_params[f]`, when the array is live and
`f` in bounds. -/
def paramAt (s : FAState) (f : Nat) : Option ActivityFilterParams :=
  s.g_activity_filter_params.bind (fun ps => ps[f]?)

/-- Allocation status and length of a state-vector slot (used to state
well-formedness decidably). -/
def slotLen : Option (Option (List Int)) → Option Nat
  | some (some v) => some v.length
  | _ => none

/-- Well-formedness of the global state for a neuron count `nn`: either no
filters are configured, or both arrays are live with length
`g_num_activity_filters` and every state vector is live with exactly `nn`
entries.  This is the shape `filtered_activity_initialise` establishes on
success and `filtered_activity_step` preserves. -/
def wf (s : FAState) (nn : Nat) : Prop :=
  s.g_num_activity_filters = 0 ∨
  ∃ acts params,
    s.g_filtered_activities = some acts ∧
    s.g_activity_filter_params = some params ∧
    acts.length = s.g_num_activity_filters ∧
    params.length = s.g_num_activity_filters ∧
    ∀ f, f < s.g_num_activity_filters → slotLen acts[f]? = some nn

-- Concrete data used by the witness theorems: a two-filter configuration
-- (decay 0.5 and 0.9 in s16.15), three neurons, all allocations
-- succeeding.
def allocT : Nat → Bool := fun _ => true

def addr2 : Nat → Nat := fun i => List.getD [2, 16384, 16384, 29491, 3277] i 0

def sEx : FAState :=
  { g_num_activity_filters := 2
    g_filtered_activities := some [some [0, 0, 0], some [0, 0, 0]]
    g_activity_filter_params :=
      some [{ filter := 16384, n_filter := 16384 },
            { filter := 29491, n_filter := 3277 }] }

-- A state with non-zero activity values (as after external injection by the
-- collaborator module), its image under one step, and variants used to
-- exercise the independence claims.
def tEx : FAState :=
  { g_num_activity_filters := 2
    g_filtered_activities :=
      some [some [32768, 65536, 98304], some [32768, 65536, 98304]]
    g_activity_filter_params :=
      some [{ filter := 16384, n_filter := 16384 },
            { filter := 29491, n_filter := 3277 }] }

def tExStepped : FAState :=
  { g_num_activity_filters := 2
    g_filtered_activities :=
      some [some [16384, 32768, 49152], some [29491, 58982, 88473]]
    g_activity_filter_params :=
      some [{ filter := 16384, n_filter := 16384 },
            { filter := 29491, n_filter := 3277 }] }

def tEx2 : FAState :=
  { g_num_activity_filters := 2
    g_filtered_activities :=
      some [some [0, 65536, 7], some [1, 2, 3]]
    g_activity_filter_params :=
      some [{ filter := 16384, n_filter := 0 },
            { filter := 5, n_filter := 5 }] }

def tEx3 : FAState :=
  { g_num_activity_filters := 2
    g_filtered_activities :=
      some [some [32768, 65536, 98304], some [32768, 65536, 98304]]
    g_activity_filter_params :=
      some [{ filter := 16384, n_filter := 999 },
            { filter := 29491, n_filter := 0 }] }

def allocF2 : Nat → Bool := fun i => i != 3

def addr0 : Nat → Nat := fun _ => 0

/-! ## Helper lemmas -/

theorem decayVec_length (d : Int) (nn : Nat) (v : List Int) :
    (decayVec d nn v).length = v.length := by
  induction v generalizing nn with
  | nil => cases nn <;> rfl
  | cons x xs ih =>
    cases nn with
    | zero => rfl
    | succ m => simp [decayVec, ih]

theorem decayVec_getElem (d : Int) (nn : Nat) (v : List Int) (n : Nat) :
    (decayVec d nn v)[n]? =
      if n < nn then Option.map (fun x => fixmul x d) v[n]? else v[n]? := by
  induction v generalizing nn n with
  | nil => cases nn <;> simp [decayVec]
  | cons x xs ih =>
    cases nn with
    | zero => simp [decayVec]
    | succ m =>
      cases n with
      | zero => simp [decayVec]
      | succ j =>
        simp [decayVec, ih, Nat.succ_lt_succ_iff]

theorem asv_length (alloc : Nat → Bool) (nn : Nat) :
    ∀ k f, ((allocStateVectors alloc nn f k).2).length = k := by
  intro k
  induction k with
  | zero => intro f; rfl
  | succ k ih =>
    intro f
    by_cases h : alloc (2 + f) = true
    · simp [allocStateVectors, h, ih]
    · simp [allocStateVectors, h]

theorem asv_true_iff (alloc : Nat → Bool) (nn : Nat) :
    ∀ k f, (allocStateVectors alloc nn f k).1 = true ↔
      ∀ j, f ≤ j → j < f + k → alloc (2 + j) = true := by
  intro k
  induction k with
  | zero =>
    intro f
    simp only [allocStateVectors]
    constructor
    · intro _ j h1 h2; omega
    · intro _; trivial
  | succ k ih =>
    intro f
    by_cases h : alloc (2 + f) = true
    · simp only [allocStateVectors, h, if_true]
      rw [ih (f + 1)]
      constructor
      · intro h1 j hj1 hj2
        rcases Nat.eq_or_lt_of_le hj1 with rfl | hj3
        · exact h
        · exact h1 j (by omega) (by omega)
      · intro h1 j hj1 hj2
        exact h1 j (by omega) (by omega)
    · simp only [allocStateVectors, h, if_false]
      constructor
      · intro h1; exact absurd h1 (by simp)
      · intro h1
        exact absurd (h1 f le_rfl (by omega)) h

theorem asv_all (alloc : Nat → Bool) (nn : Nat) :
    ∀ k f, (∀ j, f ≤ j → j < f + k → alloc (2 + j) = true) →
      allocStateVectors alloc nn f k =
        (true, List.replicate k (some (List.replicate nn 0))) := by
  intro k
  induction k with
  | zero => intro f _; rfl
  | succ k ih =>
    intro f h
    have hf : alloc (2 + f) = true := h f le_rfl (by omega)
    have hr := ih (f + 1) (fun j h1 h2 => h j (by omega) (by omega))
    simp [allocStateVectors, hf, hr, List.replicate_succ]

theorem asv_partial (alloc : Nat → Bool) (nn : Nat) :
    ∀ k f j, j < k → (∀ i, i ≤ j → alloc (2 + (f + i)) = true) →
      ((allocStateVectors alloc nn f k).2)[j]? =
        some (some (List.replicate nn 0)) := by
  intro k
  induction k with
  | zero => intro f j hj _; omega
  | succ k ih =>
    intro f j hj h
    have hf : alloc (2 + f) = true := by
      have := h 0 (Nat.zero_le j)
      simpa using this
    cases j with
    | zero =>
      simp [allocStateVectors, hf]
    | succ j =>
      have hrec := ih (f + 1) j (by omega)
        (fun i hi => by
          have := h (i + 1) (by omega)
          simpa [Nat.add_assoc, Nat.add_comm, Nat.add_left_comm] using this)
      simp [allocStateVectors, hf, hrec]

theorem getElem_lt_some {α : Type} (l : List α) (i : Nat) (h : i < l.length) :
    ∃ x, l[i]? = some x :=
  ⟨l[i], List.getElem?_eq_getElem h⟩

theorem stepUpto_spec (params : List ActivityFilterParams) (nn : Nat)
    (acts : List (Option (List Int))) :
    ∀ k, k ≤ acts.length → k ≤ params.length →
      (∀ f, f < k → ∃ v, acts[f]? = some (some v) ∧ nn ≤ v.length) →
      ∃ a, stepUpto params nn acts k = some a ∧ a.length = acts.length ∧
        (∀ f, k ≤ f → a[f]? = acts[f]?) ∧
        (∀ f, f < k → ∀ v p, acts[f]? = some (some v) → params[f]? = some p →
          a[f]? = some (some (decayVec p.filter nn v))) := by
  intro k
  induction k with
  | zero =>
    intro _ _ _
    exact ⟨acts, rfl, rfl, fun f _ => rfl, fun f hf => absurd hf (Nat.not_lt_zero f)⟩
  | succ k ih =>
    intro hk1 hk2 hs
    obtain ⟨a, ha, hlen, hge, hlt⟩ :=
      ih (by omega) (by omega) (fun f hf => hs f (by omega))
    obtain ⟨v, hv, hvlen⟩ := hs k (Nat.lt_succ_self k)
    obtain ⟨p, hpk⟩ := getElem_lt_some params k (by omega)
    have hak : a[k]? = acts[k]? := hge k le_rfl
    have hone : stepOne params nn a k =
        some (a.set k (some (decayVec p.filter nn v))) := by
      unfold stepOne
      rw [hak, hv, hpk]
      simp [hvlen]
    have hstep : stepUpto params nn acts (k + 1) =
        some (a.set k (some (decayVec p.filter nn v))) := by
      simp [stepUpto, ha, hone]
    refine ⟨a.set k (some (decayVec p.filter nn v)), hstep, ?_, ?_, ?_⟩
    · simp [hlen]
    · intro f hf
      rw [List.getElem?_set]
      have hne : ¬ k = f := by omega
      simp only [hne, if_false]
      exact hge f (by omega)
    · intro f hf v0 p0 hv0 hp0
      rcases Nat.lt_succ_iff_lt_or_eq.mp hf with hlt2 | rfl
      · rw [List.getElem?_set]
        have hne : ¬ k = f := by omega
        simp only [hne, if_false]
        exact hlt f hlt2 v0 p0 hv0 hp0
      · rw [List.getElem?_set]
        have hklen : f < a.length := by omega
        have hveq : v0 = v := by
          have h2 := hv0.symm.trans hv
          exact Option.some_injective _ (Option.some_injective _ h2)
        have hpeq : p0 = p := Option.some_injective _ (hp0.symm.trans hpk)
        simp [hklen, hveq, hpeq]

theorem slotLen_some (o : Option (Option (List Int))) (nn : Nat)
    (h : slotLen o = some nn) : ∃ v, o = some (some v) ∧ v.length = nn := by
  match o with
  | some (some v) => exact ⟨v, rfl, by simpa [slotLen] using h⟩
  | some none => simp [slotLen] at h
  | none => simp [slotLen] at h

/-- One checked step from a well-formed state succeeds, keeps the filter
count and the parameter array, preserves well-formedness, multiplies each
in-range entry by its filter's decay coefficient and leaves everything
else where it was. -/
theorem step_master (s : FAState) (nn : Nat) (h : wf s nn) :
    ∃ s2, filtered_activity_stepChecked nn s = some s2 ∧
      s2.g_num_activity_filters = s.g_num_activity_filters ∧
      s2.g_activity_filter_params = s.g_activity_filter_params ∧
      wf s2 nn ∧
      (∀ f n v p, f < s.g_num_activity_filters → n < nn →
        entry s f n = some v → paramAt s f = some p →
        entry s2 f n = some (fixmul v p.filter)) ∧
      (∀ f n, s.g_num_activity_filters ≤ f ∨ nn ≤ n →
        entry s2 f n = entry s f n) := by
  by_cases h0 : s.g_num_activity_filters = 0 ∨ nn = 0
  · refine ⟨s, ?_, rfl, rfl, h, ?_, fun f n _ => rfl⟩
    · unfold filtered_activity_stepChecked
      rw [if_pos h0]
    · intro f n v p hf hn _ _
      rcases h0 with h0 | h0 <;> omega
  · rcases h with hF0 | ⟨acts, params, hacts, hparams, hal, hpl, hslots⟩
    · exact absurd (Or.inl hF0) h0
    have hs : ∀ f, f < s.g_num_activity_filters →
        ∃ v, acts[f]? = some (some v) ∧ nn ≤ v.length := by
      intro f hf
      obtain ⟨v, hv, hvl⟩ := slotLen_some _ _ (hslots f hf)
      exact ⟨v, hv, by omega⟩
    obtain ⟨a, ha, halen, hge, hltp⟩ :=
      stepUpto_spec params nn acts s.g_num_activity_filters
        (by omega) (by omega) hs
    refine ⟨{ s with g_filtered_activities := some a }, ?_, rfl, rfl, ?_, ?_, ?_⟩
    · unfold filtered_activity_stepChecked
      rw [if_neg h0]
      simp only [hacts, hparams, ha]
      rfl
    · refine Or.inr ⟨a, params, rfl, hparams, ?_, ?_, ?_⟩
      · show a.length = s.g_num_activity_filters
        omega
      · exact hpl
      · intro f hf
        have hf2 : f < s.g_num_activity_filters := hf
        obtain ⟨v, hv, hvl⟩ := slotLen_some _ _ (hslots f hf2)
        obtain ⟨p, hp⟩ := getElem_lt_some params f (by omega)
        rw [hltp f hf2 v p hv hp]
        simp [slotLen, decayVec_length, hvl]
    · intro f n v p hf hn hv hp
      obtain ⟨v1, hv1, hvl1⟩ := hs f hf
      have hv1n : v1[n]? = some v := by
        simpa [entry, hacts, hv1] using hv
      have hpf : params[f]? = some p := by
        simpa [paramAt, hparams] using hp
      have ha1 : a[f]? = some (some (decayVec p.filter nn v1)) :=
        hltp f hf v1 p hv1 hpf
      simp [entry, ha1, decayVec_getElem, hn, hv1n]
    · intro f n hor
      by_cases hf : f < s.g_num_activity_filters
      · have hnn : nn ≤ n := by
          rcases hor with hor | hor
          · omega
          · exact hor
        obtain ⟨v1, hv1, hvl1⟩ := hs f hf
        obtain ⟨p, hpf⟩ := getElem_lt_some params f (by omega)
        have ha1 : a[f]? = some (some (decayVec p.filter nn v1)) :=
          hltp f hf v1 p hv1 hpf
        have hlt : ¬ n < nn := by omega
        simp [entry, hacts, ha1, hv1, decayVec_getElem, hlt]
      · have hge1 : a[f]? = acts[f]? := hge f (by omega)
        simp [entry, hacts, hge1]

theorem init_F (alloc : Nat → Bool) (addr : Nat → Nat) (nn : Nat) (s0 : FAState) :
    ((filtered_activity_initialise alloc addr nn s0).2).g_num_activity_filters =
      readF addr := by
  simp only [filtered_activity_initialise]
  split_ifs <;> rfl

theorem init_true_iff (alloc : Nat → Bool) (addr : Nat → Nat) (nn : Nat)
    (s0 : FAState) :
    (filtered_activity_initialise alloc addr nn s0).1 = true ↔
      (readF addr = 0 ∨ ∀ i, i < readF addr + 2 → alloc i = true) := by
  simp only [filtered_activity_initialise]
  by_cases hF : readF addr = 0
  · simp [hF]
  · rw [if_neg hF]
    cases ha0 : alloc 0 with
    | false =>
      rw [if_pos rfl]
      constructor
      · intro hc; exact absurd hc (by simp)
      · intro hc
        rcases hc with hc | hc
        · exact absurd hc hF
        · have h2 := hc 0 (by omega)
          rw [ha0] at h2
          exact absurd h2 (by simp)
    | true =>
      rw [if_neg (by simp)]
      cases ha1 : alloc 1 with
      | false =>
        rw [if_pos rfl]
        constructor
        · intro hc; exact absurd hc (by simp)
        · intro hc
          rcases hc with hc | hc
          · exact absurd hc hF
          · have h2 := hc 1 (by omega)
            rw [ha1] at h2
            exact absurd h2 (by simp)
      | true =>
        rw [if_neg (by simp)]
        rw [asv_true_iff]
        constructor
        · intro hall
          right
          intro i hi
          cases i with
          | zero => exact ha0
          | succ i =>
            cases i with
            | zero => exact ha1
            | succ i =>
              rw [show i + 1 + 1 = 2 + i from by omega]
              exact hall i (by omega) (by omega)
        · intro hr j _ hj
          rcases hr with hr | hr
          · exact absurd hr hF
          · exact hr (2 + j) (by omega)

theorem init_true_state (alloc : Nat → Bool) (addr : Nat → Nat) (nn : Nat)
    (s0 : FAState) (hF : readF addr ≠ 0)
    (h : (filtered_activity_initialise alloc addr nn s0).1 = true) :
    (filtered_activity_initialise alloc addr nn s0).2 =
      { g_num_activity_filters := readF addr
        g_filtered_activities :=
          some (List.replicate (readF addr) (some (List.replicate nn 0)))
        g_activity_filter_params :=
          some ((List.range (readF addr)).map (readParam addr)) } := by
  have hall : ∀ i, i < readF addr + 2 → alloc i = true := by
    rcases (init_true_iff alloc addr nn s0).mp h with h2 | h2
    · exact absurd h2 hF
    · exact h2
  have h0 : alloc 0 = true := hall 0 (by omega)
  have h1 : alloc 1 = true := hall 1 (by omega)
  have hasv := asv_all alloc nn (readF addr) 0
    (fun j hj1 hj2 => hall (2 + j) (by omega))
  simp only [filtered_activity_initialise]
  rw [if_neg hF, if_neg (by rw [h0]; simp), if_neg (by rw [h1]; simp)]
  simp [hasv]

theorem init_wf (alloc : Nat → Bool) (addr : Nat → Nat) (nn : Nat) (s0 : FAState)
    (h : (filtered_activity_initialise alloc addr nn s0).1 = true) :
    wf (filtered_activity_initialise alloc addr nn s0).2 nn := by
  by_cases hF : readF addr = 0
  · left
    rw [init_F, hF]
  · right
    rw [init_true_state alloc addr nn s0 hF h]
    refine ⟨_, _, rfl, rfl, by simp, by simp, ?_⟩
    intro f hf
    have hf2 : f < readF addr := hf
    rw [List.getElem?_replicate, if_pos hf2]
    simp [slotLen]

theorem iterStep_wf (nn : Nat) : ∀ k s, wf s nn →
    ∃ s2, iterStep nn k s = some s2 ∧ wf s2 nn ∧
      s2.g_num_activity_filters = s.g_num_activity_filters ∧
      s2.g_activity_filter_params = s.g_activity_filter_params := by
  intro k
  induction k with
  | zero => intro s h; exact ⟨s, rfl, h, rfl, rfl⟩
  | succ k ih =>
    intro s h
    obtain ⟨s1, hs1, hF1, hp1, hw1, _, _⟩ := step_master s nn h
    obtain ⟨s2, hs2, hw2, hF2, hp2⟩ := ih s1 hw1
    exact ⟨s2, by simp [iterStep, hs1, hs2], hw2, hF2.trans hF1, hp2.trans hp1⟩

theorem wf_defined (s : FAState) (nn : Nat) (h : wf s nn) (f n : Nat)
    (hf : f < s.g_num_activity_filters) (hn : n < nn) :
    (∃ v, entry s f n = some v) ∧ ∃ p, paramAt s f = some p := by
  rcases h with h0 | ⟨acts, params, hacts, hparams, hal, hpl, hslots⟩
  · omega
  · obtain ⟨v, hv, hvl⟩ := slotLen_some _ _ (hslots f hf)
    obtain ⟨x, hx⟩ := getElem_lt_some v n (by omega)
    obtain ⟨p, hp⟩ := getElem_lt_some params f (by omega)
    exact ⟨⟨x, by simp [entry, hacts, hv, hx]⟩, ⟨p, by simp [paramAt, hparams, hp]⟩⟩

theorem stepOne_length (params : List ActivityFilterParams) (nn : Nat)
    (acts a : List (Option (List Int))) (f : Nat)
    (h : stepOne params nn acts f = some a) : a.length = acts.length := by
  unfold stepOne at h
  cases hacts : acts[f]? with
  | none => rw [hacts] at h; exact absurd h (by simp)
  | some o =>
    rw [hacts] at h
    cases o with
    | none => exact absurd h (by simp)
    | some v =>
      cases hp : params[f]? with
      | none => rw [hp] at h; exact absurd h (by simp)
      | some p =>
        rw [hp] at h
        change (if nn ≤ v.length then
            some (acts.set f (some (decayVec p.filter nn v)))
          else none) = some a at h
        by_cases hle : nn ≤ v.length
        · rw [if_pos hle] at h
          cases h
          simp
        · rw [if_neg hle] at h
          exact absurd h (by simp)

theorem stepUpto_length (params : List ActivityFilterParams) (nn : Nat)
    (acts : List (Option (List Int))) :
    ∀ k a, stepUpto params nn acts k = some a → a.length = acts.length := by
  intro k
  induction k with
  | zero => intro a h; cases h; rfl
  | succ k ih =>
    intro a h
    simp only [stepUpto] at h
    cases hk : stepUpto params nn acts k with
    | none => rw [hk] at h; exact absurd h (by simp)
    | some b =>
      rw [hk] at h
      simp only [Option.some_bind] at h
      exact (stepOne_length params nn b a k h).trans (ih b hk)

theorem stepOne_congr (ps qs : List ActivityFilterParams) (nn : Nat)
    (acts : List (Option (List Int))) (f : Nat)
    (hf : Option.map ActivityFilterParams.filter ps[f]? =
          Option.map ActivityFilterParams.filter qs[f]?) :
    stepOne ps nn acts f = stepOne qs nn acts f := by
  unfold stepOne
  cases hps : ps[f]? with
  | none =>
    cases hqs : qs[f]? with
    | none => rfl
    | some q =>
      rw [hps, hqs] at hf
      exact absurd hf (by simp)
  | some p =>
    cases hqs : qs[f]? with
    | none =>
      rw [hps, hqs] at hf
      exact absurd hf (by simp)
    | some q =>
      rw [hps, hqs] at hf
      have hpq : p.filter = q.filter := by simpa using hf
      cases hacts : acts[f]? with
      | none => rfl
      | some o =>
        cases o with
        | none => rfl
        | some v =>
          show (if nn ≤ v.length then
              some (acts.set f (some (decayVec p.filter nn v)))
            else none) =
            (if nn ≤ v.length then
              some (acts.set f (some (decayVec q.filter nn v)))
            else none)
          rw [hpq]

theorem stepUpto_congr (ps qs : List ActivityFilterParams) (nn : Nat)
    (acts : List (Option (List Int))) :
    ∀ k, (∀ f, f < k → Option.map ActivityFilterParams.filter ps[f]? =
      Option.map ActivityFilterParams.filter qs[f]?) →
      stepUpto ps nn acts k = stepUpto qs nn acts k := by
  intro k
  induction k with
  | zero => intro _; rfl
  | succ k ih =>
    intro h
    simp only [stepUpto]
    rw [ih (fun f hf => h f (by omega))]
    cases hq : stepUpto qs nn acts k with
    | none => rfl
    | some b =>
      simp only [Option.some_bind]
      exact stepOne_congr ps qs nn b k (h k (by omega))


/-! ## Claims -/

/-- C1: for every call to `filtered_activity_step(n_neurons)` after a
successful `filtered_activity_initialise` (and any number of intervening
steps), the call is memory-safe and the new value of `state[f][n]` equals
the old value multiplied (fixed-point) by filter `f`'s decay coefficient,
for every `f < F` and `n < n_neurons`; no other update is applied (the
filter count, the parameter records and all out-of-range entries are
unchanged). -/
theorem C1_step_is_pure_decay (alloc : Nat → Bool) (addr : Nat → Nat)
    (nn k : Nat) (s1 s : FAState)
    (hinit : filtered_activity_initialise alloc addr nn initialState = (true, s1))
    (hiter : iterStep nn k s1 = some s) :
    ∃ s2, filtered_activity_stepChecked nn s = some s2 ∧
      s2.g_num_activity_filters = s.g_num_activity_filters ∧
      s2.g_activity_filter_params = s.g_activity_filter_params ∧
      (∀ f n v p, f < s.g_num_activity_filters → n < nn →
        entry s f n = some v → paramAt s f = some p →
        entry s2 f n = some (fixmul v p.filter)) ∧
      (∀ f n, s.g_num_activity_filters ≤ f ∨ nn ≤ n →
        entry s2 f n = entry s f n) := by
  have h1 : (filtered_activity_initialise alloc addr nn initialState).1 = true := by
    rw [hinit]
  have hw1 : wf s1 nn := by
    have h2 := init_wf alloc addr nn initialState h1
    rwa [hinit] at h2
  obtain ⟨s2, hs2, hw2, _, _⟩ := iterStep_wf nn k s1 hw1
  have hseq : s2 = s := by
    rw [hiter] at hs2
    exact Option.some_injective _ hs2.symm
  obtain ⟨s3, h3, hF, hp, _, hpoint, hframe⟩ := step_master s nn (hseq ▸ hw2)
  exact ⟨s3, h3, hF, hp, hpoint, hframe⟩

/-- C2: with `F > 0` filters configured and `n_neurons > 0`, immediately
after a successful `filtered_activity_initialise` every `state[f][n]` is
zero (`f < F`, `n < n_neurons`). -/
theorem C2_state_zeroed (alloc : Nat → Bool) (addr : Nat → Nat) (nn : Nat)
    (s : FAState) (hF : 0 < readF addr) (hN : 0 < nn)
    (hinit : filtered_activity_initialise alloc addr nn initialState = (true, s)) :
    ∀ f, f < readF addr → ∀ n, n < nn → entry s f n = some 0 := by
  intro f hf n hn
  have h1 : (filtered_activity_initialise alloc addr nn initialState).1 = true := by
    rw [hinit]
  have hs : s =
      { g_num_activity_filters := readF addr
        g_filtered_activities :=
          some (List.replicate (readF addr) (some (List.replicate nn 0)))
        g_activity_filter_params :=
          some ((List.range (readF addr)).map (readParam addr)) } := by
    have h2 := init_true_state alloc addr nn initialState (by omega) h1
    rw [hinit] at h2
    exact h2
  rw [hs]
  simp [entry, List.getElem?_replicate, hf, hn]

/-- C3: `filtered_activity_initialise` returns `false` exactly when one of
the attempted allocations fails (so it returns `true` whenever `F = 0`,
where no allocation is attempted, or all `F + 2` allocations succeed); on
failure no rollback happens: the filter count read from the
configuration stays stored, the parameter array stays allocated once its
allocation succeeded, and every state vector whose allocation succeeded
before the failing one stays allocated. -/
theorem C3_allocation_failure (alloc : Nat → Bool) (addr : Nat → Nat) (nn : Nat) :
    ((filtered_activity_initialise alloc addr nn initialState).1 = true ↔
      (readF addr = 0 ∨ ∀ i, i < readF addr + 2 → alloc i = true)) ∧
    ((filtered_activity_initialise alloc addr nn
        initialState).2).g_num_activity_filters = readF addr ∧
    (readF addr ≠ 0 → alloc 0 = true →
      ((filtered_activity_initialise alloc addr nn
          initialState).2).g_activity_filter_params.isSome = true) ∧
    (readF addr ≠ 0 → alloc 0 = true → alloc 1 = true →
      ∃ acts, ((filtered_activity_initialise alloc addr nn
          initialState).2).g_filtered_activities = some acts ∧
        acts.length = readF addr ∧
        ∀ f, f < readF addr → (∀ g, g ≤ f → alloc (2 + g) = true) →
          ∃ v, acts[f]? = some (some v)) := by
  refine ⟨init_true_iff alloc addr nn initialState,
    init_F alloc addr nn initialState, ?_, ?_⟩
  · intro hF h0
    simp only [filtered_activity_initialise]
    rw [if_neg hF, if_neg (by rw [h0]; simp)]
    by_cases h1 : alloc 1 = false
    · rw [if_pos h1]
      simp
    · rw [if_neg h1]
      simp
  · intro hF h0 h1
    simp only [filtered_activity_initialise]
    rw [if_neg hF, if_neg (by rw [h0]; simp), if_neg (by rw [h1]; simp)]
    refine ⟨(allocStateVectors alloc nn 0 (readF addr)).2, rfl,
      asv_length alloc nn (readF addr) 0, ?_⟩
    intro f hf hall
    have h2 := asv_partial alloc nn (readF addr) 0 f hf
      (fun i hi => by simpa using hall i hi)
    exact ⟨List.replicate nn 0, h2⟩

/-- C4: from any well-formed state (as established by a successful
`filtered_activity_initialise`, possibly after external injection of
activity values by the collaborator module), if `state[f][n] = v0` and
filter `f` has decay coefficient `d = p.filter`, then `k` consecutive
calls to `filtered_activity_step` succeed and leave `state[f][n]` equal to
`v0` multiplied by `d` exactly `k` times under the fixed-point
multiplication. -/
theorem C4_decay_power (s : FAState) (nn f n k : Nat) (v0 : Int)
    (p : ActivityFilterParams) (h : wf s nn)
    (hf : f < s.g_num_activity_filters) (hn : n < nn)
    (hv : entry s f n = some v0) (hp : paramAt s f = some p) :
    ∃ s2, iterStep nn k s = some s2 ∧
      entry s2 f n = some ((fun v => fixmul v p.filter)^[k] v0) := by
  have main : ∀ m t (w0 : Int), wf t nn → f < t.g_num_activity_filters →
      entry t f n = some w0 → paramAt t f = some p →
      ∃ s2, iterStep nn m t = some s2 ∧
        entry s2 f n = some ((fun v => fixmul v p.filter)^[m] w0) := by
    intro m
    induction m with
    | zero =>
      intro t w0 _ _ hv2 _
      exact ⟨t, rfl, by simpa using hv2⟩
    | succ m ih =>
      intro t w0 hw hf2 hv2 hp2
      obtain ⟨t1, ht1, hF1, hps1, hw1, hpoint, _⟩ := step_master t nn hw
      have hv3 : entry t1 f n = some (fixmul w0 p.filter) :=
        hpoint f n w0 p hf2 hn hv2 hp2
      have hf3 : f < t1.g_num_activity_filters := by
        rw [hF1]
        exact hf2
      have hp3 : paramAt t1 f = some p := by
        show t1.g_activity_filter_params.bind _ = some p
        rw [hps1]
        exact hp2
      obtain ⟨s2, hs2, he2⟩ := ih t1 (fixmul w0 p.filter) hw1 hf3 hv3 hp3
      refine ⟨s2, by simp [iterStep, ht1, hs2], ?_⟩
      rw [he2, Function.iterate_succ_apply]
  exact main k s v0 h hf hv hp

/-- C5: `filtered_activity_step` updates every entry independently: the
post-step value of entry `(f, n)` is a function of that entry's own prior
value and filter `f`'s own decay coefficient alone, so in two well-formed
states that agree there (but may differ in every other entry and every
other parameter), stepping produces the same value at `(f, n)`. -/
theorem C5_entry_independence (s t : FAState) (nn f n : Nat)
    (hs : wf s nn) (ht : wf t nn)
    (hfs : f < s.g_num_activity_filters) (hft : f < t.g_num_activity_filters)
    (hn : n < nn)
    (he : entry s f n = entry t f n)
    (hp : Option.map ActivityFilterParams.filter (paramAt s f) =
          Option.map ActivityFilterParams.filter (paramAt t f)) :
    ∀ s2 t2, filtered_activity_stepChecked nn s = some s2 →
      filtered_activity_stepChecked nn t = some t2 →
      entry s2 f n = entry t2 f n := by
  intro s2 t2 hstep1 hstep2
  obtain ⟨⟨v, hv⟩, ⟨p, hpp⟩⟩ := wf_defined s nn hs f n hfs hn
  obtain ⟨⟨w, hw⟩, ⟨q, hqq⟩⟩ := wf_defined t nn ht f n hft hn
  obtain ⟨s2b, hs2b, _, _, _, hpoint1, _⟩ := step_master s nn hs
  obtain ⟨t2b, ht2b, _, _, _, hpoint2, _⟩ := step_master t nn ht
  have hs2eq : s2 = s2b := Option.some_injective _ (hstep1.symm.trans hs2b)
  have ht2eq : t2 = t2b := Option.some_injective _ (hstep2.symm.trans ht2b)
  have h1 : entry s2b f n = some (fixmul v p.filter) :=
    hpoint1 f n v p hfs hn hv hpp
  have h2 : entry t2b f n = some (fixmul w q.filter) :=
    hpoint2 f n w q hft hn hw hqq
  have hvw : v = w := by
    rw [hv, hw] at he
    exact Option.some_injective _ he
  have hfilter : p.filter = q.filter := by
    rw [hpp, hqq] at hp
    simpa using hp
  rw [hs2eq, ht2eq, h1, h2, hvw, hfilter]

/-- C6: when the configuration's first word is `F = 0`,
`filtered_activity_initialise` succeeds without consulting the allocator
(the result is the same for every allocation oracle), leaves both arrays
null and the filter count `0`, and every subsequent
`filtered_activity_step` call is a safe no-op for any `n_neurons`. -/
theorem C6_empty_configuration (alloc : Nat → Bool) (addr : Nat → Nat) (nn : Nat)
    (hF : readF addr = 0) :
    filtered_activity_initialise alloc addr nn initialState =
      (true, initialState) ∧
    ∀ m, filtered_activity_stepChecked m initialState = some initialState := by
  constructor
  · simp only [filtered_activity_initialise]
    rw [if_pos hF, hF]
    rfl
  · intro m
    simp [filtered_activity_stepChecked, initialState]

/-- C7: parameter copy fidelity: with `F > 0`, after a successful
`filtered_activity_initialise` the `f`-th stored parameter record (both
its `filter`/decay and `n_filter`/one-minus-decay words) equals exactly
the `f`-th two-word record of the configuration block starting at word 1,
for every `f < F`. -/
theorem C7_parameter_copy (alloc : Nat → Bool) (addr : Nat → Nat) (nn : Nat)
    (s : FAState) (hF : 0 < readF addr)
    (hinit : filtered_activity_initialise alloc addr nn initialState = (true, s)) :
    ∀ f, f < readF addr →
      paramAt s f = some { filter := toSigned32 (addr (1 + 2 * f))
                           n_filter := toSigned32 (addr (2 + 2 * f)) } := by
  intro f hf
  have h1 : (filtered_activity_initialise alloc addr nn initialState).1 = true := by
    rw [hinit]
  have hs : s =
      { g_num_activity_filters := readF addr
        g_filtered_activities :=
          some (List.replicate (readF addr) (some (List.replicate nn 0)))
        g_activity_filter_params :=
          some ((List.range (readF addr)).map (readParam addr)) } := by
    have h2 := init_true_state alloc addr nn initialState (by omega) h1
    rw [hinit] at h2
    exact h2
  rw [hs]
  simp [paramAt, List.getElem?_range hf, readParam]

/-- C8: a (successful) call to `filtered_activity_step` leaves the filter
count and every parameter record unchanged, and its only mutation is to
the state vectors: the pointer array stays allocated or null as it was,
with the same number of slots (no allocation takes place; the embedding
performs no I/O at all). -/
theorem C8_step_frame (nn : Nat) (s s2 : FAState)
    (hstep : filtered_activity_stepChecked nn s = some s2) :
    s2.g_num_activity_filters = s.g_num_activity_filters ∧
    s2.g_activity_filter_params = s.g_activity_filter_params ∧
    s2.g_filtered_activities.isSome = s.g_filtered_activities.isSome ∧
    (∀ acts acts2, s.g_filtered_activities = some acts →
      s2.g_filtered_activities = some acts2 → acts2.length = acts.length) := by
  unfold filtered_activity_stepChecked at hstep
  by_cases h0 : s.g_num_activity_filters = 0 ∨ nn = 0
  · rw [if_pos h0] at hstep
    obtain rfl : s = s2 := Option.some_injective _ hstep
    refine ⟨rfl, rfl, rfl, ?_⟩
    intro acts acts2 ha1 ha2
    rw [ha1] at ha2
    rw [Option.some_injective _ ha2]
  · rw [if_neg h0] at hstep
    cases hacts : s.g_filtered_activities with
    | none =>
      rw [hacts] at hstep
      cases hparams : s.g_activity_filter_params with
      | none =>
        rw [hparams] at hstep
        exact absurd hstep (by simp)
      | some params =>
        rw [hparams] at hstep
        exact absurd hstep (by simp)
    | some acts =>
      cases hparams : s.g_activity_filter_params with
      | none =>
        rw [hacts, hparams] at hstep
        exact absurd hstep (by simp)
      | some params =>
        rw [hacts, hparams] at hstep
        dsimp only at hstep
        cases hup : stepUpto params nn acts s.g_num_activity_filters with
        | none =>
          rw [hup] at hstep
          exact absurd hstep (by simp)
        | some a =>
          rw [hup] at hstep
          have hs2 : FAState.mk s.g_num_activity_filters (some a) (some params)
              = s2 := by
            simpa using hstep
          rw [← hs2]
          refine ⟨rfl, rfl, rfl, ?_⟩
          intro acts0 acts2 h1 h2
          have e1 : acts = acts0 := Option.some_injective _ h1
          have e2 : acts2 = a := by
            have h3 : some a = some acts2 := h2
            exact (Option.some_injective _ h3).symm
          rw [← e1, e2]
          exact stepUpto_length params nn acts _ a hup

/-- C9: the state `filtered_activity_step` produces does not depend on any
`n_filter` (one-minus-decay) field: two states with the same filter count,
the same state vectors and parameter arrays agreeing on every `filter`
(decay) field step to the same state vectors, and the step succeeds in one
exactly when it succeeds in the other. -/
theorem C9_one_minus_decay_unused (s t : FAState) (nn : Nat)
    (h1 : s.g_num_activity_filters = t.g_num_activity_filters)
    (h2 : s.g_filtered_activities = t.g_filtered_activities)
    (h3 : s.g_activity_filter_params.isSome = t.g_activity_filter_params.isSome)
    (h4 : ∀ f, f < s.g_num_activity_filters →
      Option.map ActivityFilterParams.filter (paramAt s f) =
      Option.map ActivityFilterParams.filter (paramAt t f)) :
    Option.map FAState.g_filtered_activities
        (filtered_activity_stepChecked nn s) =
      Option.map FAState.g_filtered_activities
        (filtered_activity_stepChecked nn t) ∧
    (filtered_activity_stepChecked nn s).isSome =
      (filtered_activity_stepChecked nn t).isSome := by
  unfold filtered_activity_stepChecked
  by_cases h0 : s.g_num_activity_filters = 0 ∨ nn = 0
  · rw [if_pos h0, if_pos (by rw [← h1]; exact h0)]
    exact ⟨by simp [h2], rfl⟩
  · rw [if_neg h0, if_neg (by rw [← h1]; exact h0)]
    cases hacts : s.g_filtered_activities with
    | none =>
      rw [← h2, hacts]
      cases hsp : s.g_activity_filter_params with
      | none =>
        have htp : t.g_activity_filter_params = none := by
          rw [hsp] at h3
          cases htp2 : t.g_activity_filter_params with
          | none => rfl
          | some qs => rw [htp2] at h3; simp at h3
        rw [htp]
        exact ⟨rfl, rfl⟩
      | some ps =>
        obtain ⟨qs, htp⟩ : ∃ qs, t.g_activity_filter_params = some qs := by
          rw [hsp] at h3
          cases htp2 : t.g_activity_filter_params with
          | none => rw [htp2] at h3; simp at h3
          | some qs => exact ⟨qs, rfl⟩
        rw [htp]
        exact ⟨rfl, rfl⟩
    | some acts =>
      rw [← h2, hacts]
      cases hsp : s.g_activity_filter_params with
      | none =>
        have htp : t.g_activity_filter_params = none := by
          rw [hsp] at h3
          cases htp2 : t.g_activity_filter_params with
          | none => rfl
          | some qs => rw [htp2] at h3; simp at h3
        rw [htp]
        exact ⟨rfl, rfl⟩
      | some ps =>
        obtain ⟨qs, htp⟩ : ∃ qs, t.g_activity_filter_params = some qs := by
          rw [hsp] at h3
          cases htp2 : t.g_activity_filter_params with
          | none => rw [htp2] at h3; simp at h3
          | some qs => exact ⟨qs, rfl⟩
        rw [htp, ← h1]
        have hcong := stepUpto_congr ps qs nn acts s.g_num_activity_filters
          (fun f hf => by
            have h5 := h4 f hf
            simpa [paramAt, hsp, htp] using h5)
        dsimp only
        rw [hcong]
        cases hup : stepUpto qs nn acts s.g_num_activity_filters with
        | none => exact ⟨rfl, rfl⟩
        | some a => exact ⟨by simp, rfl⟩

/-- C10: calling `filtered_activity_step(n_neurons)` in the load-time
state, before any `filtered_activity_initialise` (filter count `0`, both
global pointers null), is safe for every `n_neurons`: no loop body runs,
no null pointer is dereferenced (the checked step does not return `none`)
and the state is unchanged. -/
theorem C10_step_uninitialised_safe :
    ∀ nn, filtered_activity_stepChecked nn initialState = some initialState := by
  intro nn
  simp [filtered_activity_stepChecked, initialState]

/-! ## Witnesses -/

/-- Witness for C1 at a concrete two-filter configuration. -/
theorem C1_witness :
    filtered_activity_initialise allocT addr2 3 initialState = (true, sEx) ∧
    iterStep 3 0 sEx = some sEx ∧
    (∃ s2, filtered_activity_stepChecked 3 sEx = some s2 ∧
      s2.g_num_activity_filters = sEx.g_num_activity_filters ∧
      s2.g_activity_filter_params = sEx.g_activity_filter_params ∧
      (∀ f n v p, f < sEx.g_num_activity_filters → n < 3 →
        entry sEx f n = some v → paramAt sEx f = some p →
        entry s2 f n = some (fixmul v p.filter)) ∧
      (∀ f n, sEx.g_num_activity_filters ≤ f ∨ 3 ≤ n →
        entry s2 f n = entry sEx f n)) :=
  ⟨by decide, rfl, C1_step_is_pure_decay allocT addr2 3 0 sEx sEx (by decide) rfl⟩

/-- Witness for C2 at a concrete two-filter configuration. -/
theorem C2_witness :
    0 < readF addr2 ∧ 0 < 3 ∧
    (∀ f, f < readF addr2 → ∀ n, n < 3 → entry sEx f n = some 0) :=
  ⟨by decide, by decide,
    C2_state_zeroed allocT addr2 3 sEx (by decide) (by decide) (by decide)⟩

/-- Witness for C3: the allocation of filter 1's state vector fails; the
call reports failure, the filter count stays stored and filter 0's state
vector stays allocated. -/
theorem C3_witness :
    (filtered_activity_initialise allocF2 addr2 3 initialState).1 = false ∧
    ((filtered_activity_initialise allocF2 addr2 3
        initialState).2).g_num_activity_filters = 2 ∧
    (∃ acts, ((filtered_activity_initialise allocF2 addr2 3
        initialState).2).g_filtered_activities = some acts ∧
      acts.length = 2 ∧ ∃ v, acts[0]? = some (some v)) := by
  refine ⟨by decide, by decide, ?_⟩
  obtain ⟨acts, ha, hl, hs⟩ :=
    (C3_allocation_failure allocF2 addr2 3).2.2.2 (by decide) (by decide)
      (by decide)
  obtain ⟨v, hv⟩ := hs 0 (by decide) (by decide)
  refine ⟨acts, ha, ?_, v, hv⟩
  rw [hl]
  decide

/-- Witness for C4: one step decays the injected value 2.0 (65536) to 1.0
(32768) under the 0.5 decay coefficient. -/
theorem C4_witness :
    wf tEx 3 ∧ entry tEx 0 1 = some 65536 ∧
    paramAt tEx 0 = some { filter := 16384, n_filter := 16384 } ∧
    (∃ s2, iterStep 3 1 tEx = some s2 ∧
      entry s2 0 1 = some ((fun v => fixmul v (16384 : Int))^[1] 65536)) := by
  have hw : wf tEx 3 := Or.inr ⟨_, _, rfl, rfl, rfl, rfl, by decide⟩
  exact ⟨hw, rfl, rfl,
    C4_decay_power tEx 3 0 1 1 65536 { filter := 16384, n_filter := 16384 }
      hw (by decide) (by decide) rfl rfl⟩

/-- Witness for C5: two states that differ everywhere except at entry
`(0, 1)` and filter 0's decay coefficient step to the same value there. -/
theorem C5_witness :
    wf tEx 3 ∧ wf tEx2 3 ∧ entry tEx 0 1 = entry tEx2 0 1 ∧
    Option.map ActivityFilterParams.filter (paramAt tEx 0) =
      Option.map ActivityFilterParams.filter (paramAt tEx2 0) ∧
    (∀ s2 t2, filtered_activity_stepChecked 3 tEx = some s2 →
      filtered_activity_stepChecked 3 tEx2 = some t2 →
      entry s2 0 1 = entry t2 0 1) := by
  have hw1 : wf tEx 3 := Or.inr ⟨_, _, rfl, rfl, rfl, rfl, by decide⟩
  have hw2 : wf tEx2 3 := Or.inr ⟨_, _, rfl, rfl, rfl, rfl, by decide⟩
  exact ⟨hw1, hw2, rfl, rfl,
    C5_entry_independence tEx tEx2 3 0 1 hw1 hw2 (by decide) (by decide)
      (by decide) rfl rfl⟩

/-- Witness for C6 at the all-zero configuration region. -/
theorem C6_witness :
    readF addr0 = 0 ∧
    (filtered_activity_initialise allocT addr0 7 initialState =
        (true, initialState) ∧
      ∀ m, filtered_activity_stepChecked m initialState = some initialState) :=
  ⟨by decide, C6_empty_configuration allocT addr0 7 (by decide)⟩

/-- Witness for C7 at a concrete two-filter configuration. -/
theorem C7_witness :
    0 < readF addr2 ∧
    (∀ f, f < readF addr2 →
      paramAt sEx f = some { filter := toSigned32 (addr2 (1 + 2 * f))
                             n_filter := toSigned32 (addr2 (2 + 2 * f)) }) :=
  ⟨by decide, C7_parameter_copy allocT addr2 3 sEx (by decide) (by decide)⟩

/-- Witness for C8 at a concrete step (the spec's scenario: decays 0.5 and
0.9 applied to injected values). -/
theorem C8_witness :
    filtered_activity_stepChecked 3 tEx = some tExStepped ∧
    (tExStepped.g_num_activity_filters = tEx.g_num_activity_filters ∧
      tExStepped.g_activity_filter_params = tEx.g_activity_filter_params ∧
      tExStepped.g_filtered_activities.isSome =
        tEx.g_filtered_activities.isSome ∧
      (∀ acts acts2, tEx.g_filtered_activities = some acts →
        tExStepped.g_filtered_activities = some acts2 →
        acts2.length = acts.length)) :=
  ⟨by decide, C8_step_frame 3 tEx tExStepped (by decide)⟩

/-- Witness for C9: changing only the `n_filter` fields leaves the stepped
state vectors unchanged. -/
theorem C9_witness :
    tEx.g_num_activity_filters = tEx3.g_num_activity_filters ∧
    tEx.g_filtered_activities = tEx3.g_filtered_activities ∧
    tEx.g_activity_filter_params.isSome =
      tEx3.g_activity_filter_params.isSome ∧
    (∀ f, f < tEx.g_num_activity_filters →
      Option.map ActivityFilterParams.filter (paramAt tEx f) =
      Option.map ActivityFilterParams.filter (paramAt tEx3 f)) ∧
    (Option.map FAState.g_filtered_activities
        (filtered_activity_stepChecked 3 tEx) =
      Option.map FAState.g_filtered_activities
        (filtered_activity_stepChecked 3 tEx3) ∧
      (filtered_activity_stepChecked 3 tEx).isSome =
        (filtered_activity_stepChecked 3 tEx3).isSome) :=
  ⟨rfl, rfl, rfl, by decide,
    C9_one_minus_decay_unused tEx tEx3 3 rfl rfl rfl (by decide)⟩
